import Mathlib

/-!
# Bulk Data export client (`bulk.go`): embedding and properties

A shallow embedding of `src/bulk.go`:

* `stripURL`              – the progress-bar label (lines 165-171);
* `parseManifest`         – the JSON inspection inside `getBulkDataFiles` (lines 115-162);
* `getBulkDataFiles`      – the polling loop plus body read and parse (lines 65-163);
* `workerJob`, `step`, `runPool`, `downloadFiles` – the download worker of `startDlWorker`
  (lines 173-214) and the pool started by `downloadFiles` (lines 216-237), the
  goroutines being interleaved step by step;
* `getBulkData`           – the kickoff request (lines 239-273).

Go strings are byte sequences, Go `int` values are integers, a Go `error` is
`Option String` (`none` is `nil`), a run-time panic is an explicit outcome.
-/

namespace Bulk

/-! ## Go values -/

/-- A Go `string`: an immutable sequence of bytes, `len` is the number of bytes. -/
abbrev GoString := List UInt8

/-- The Go string holding the given ASCII text: one byte per character. -/
def ascii (s : String) : GoString := s.toList.map (fun c => UInt8.ofNat c.toNat)

/-- A Go `error` value: `none` is the `nil` error, `some msg` an error with that message. -/
abbrev GoError := Option String

/-- The function `errors.Wrap` of `github.com/pkg/errors`: it annotates `err` with the
message, and by its documented contract "If err is nil, Wrap returns nil". -/
def errorsWrap (err : GoError) (message : String) : GoError :=
  match err with
  | none => none
  | some e => some (message ++ ": " ++ e)

/-- The dynamic value `iter.Read()` of json-iterator hands back as `interface{}`:
`nil` for the JSON literal `null` (and when nothing could be read), `bool`, `float64`
(kept as its 64-bit pattern, the code never looks at it), `string`, `[]interface{}`
and `map[string]interface{}`. -/
inductive JVal where
  | null
  | bool (b : Bool)
  | num (bits : Nat)
  | str (s : GoString)
  | arr (xs : List JVal)
  | obj (kvs : List (GoString × JVal))

/-- Go map indexing `m[key]` on a `map[string]interface{}`: the stored value, or the
zero value `nil` when the key is absent. The map is given by its entries. -/
def mapIndex (m : List (GoString × JVal)) (key : GoString) : JVal :=
  match m.lookup key with
  | some v => v
  | none => JVal.null

/-- What `getBulkDataFiles` returns: the `[]string` (`none` is the `nil` slice) and the error. -/
structure FilesResult where
  fileURLs : Option (List GoString)
  err : GoError
  deriving DecidableEq

/-! ## `getBulkDataFiles`: inspecting the decoded manifest (lines 115-162) -/

/-- The loop `for _, v := range outputArr` (lines 140-160) with the slice `fileURLs`
built so far; falling out of the loop is the `return fileURLs, nil` of line 162. -/
def collectURLs : List JVal → List GoString → FilesResult
  | [], fileURLs => ⟨some fileURLs, none⟩
  | v :: rest, fileURLs =>
    match v with
    | JVal.obj item =>
      match mapIndex item (ascii "url") with
      | JVal.null => ⟨none, some "cannot get 'url' attribute in item of 'output' array"⟩
      | JVal.str urlString => collectURLs rest (fileURLs ++ [urlString])
      | _ => ⟨none, some "'url' attribute is not a string"⟩
    | _ => ⟨none, some "got non-object in 'output' array"⟩

/-- Lines 115-162 of `getBulkDataFiles`: `obj` is the value `iter.Read()` returned for
the completion body and `iterError` is `iter.Error` after that call. -/
def parseManifest (obj : JVal) (iterError : GoError) : FilesResult :=
  match obj with
  | JVal.null => ⟨none, errorsWrap iterError "cannot parse server response"⟩
  | JVal.obj objMap =>
    match mapIndex objMap (ascii "output") with
    | JVal.null => ⟨none, some "expecting to have 'output' attribute"⟩
    | JVal.arr outputArr => collectURLs outputArr []
    | _ => ⟨none, some "'output' attribute is not an JSON Array"⟩
  | _ => ⟨none, some "expecting JSON object at the top level"⟩

/-! ## Outcomes and observable events -/

/-- How a piece of Go code ends: it returns a value, it panics (a run-time error that
nobody recovers, which ends the whole process), or it is left waiting because the
scripted surroundings have no further answer for it. -/
inductive Run (α : Type) where
  | ret (a : α)
  | panic (msg : String)
  | stuck
  deriving DecidableEq

/-- The observable actions of the client, in the order they happen. -/
inductive Event where
  | println (msg : String)
  | httpGet (url : GoString)
  | bodyClose
  | sleep (ms : Nat)
  | readAll
  | downloadFiles (fileURLs : List GoString) (numWorkers : Int)
  deriving DecidableEq

/-! ## `stripURL` (lines 165-171) -/

/-- The Go slice expression `s[lo:hi]` on a string with run-time indices: it panics
unless `0 <= lo <= hi <= len(s)`. -/
def sliceString (s : GoString) (lo hi : Int) : Run GoString :=
  if 0 ≤ lo ∧ lo ≤ hi ∧ hi ≤ (s.length : Int) then
    Run.ret ((s.drop lo.toNat).take (hi - lo).toNat)
  else
    Run.panic "slice bounds out of range"

/-- The function `stripURL` (lines 165-171). `strings.Repeat(" ", n)` is `n` spaces
(byte 32); it is only called with `n > 0` here. In the second branch
`len(url) >= length`, so for `length >= 0` the index `len(url)-length-3` is computed
without overflow. -/
def stripURL (url : GoString) (length : Int) : Run GoString :=
  if (url.length : Int) < length then
    Run.ret (List.replicate (length - (url.length : Int)).toNat (32 : UInt8) ++ url)
  else
    match sliceString url ((url.length : Int) - length - 3) (url.length : Int) with
    | Run.ret tail => Run.ret (ascii "..." ++ tail)
    | Run.panic msg => Run.panic msg
    | Run.stuck => Run.stuck

/-! ## `getBulkDataFiles` (lines 65-163) -/

/-- The part of an `*http.Response` to a poll request that `getBulkDataFiles` uses:
the status code, the error of `ioutil.ReadAll(resp.Body)`, and what json-iterator
makes of the bytes read (`iter.Read()` and `iter.Error`). -/
structure PollResponse where
  StatusCode : Int
  readErr : GoError
  obj : JVal
  iterError : GoError

/-- One answer of `http.Get(pingURL)`: a transport error, or a response. -/
inductive PollGet where
  | err (e : String)
  | resp (r : PollResponse)

/-- How the polling loop is left. -/
inductive LoopExit where
  | returned (r : FilesResult)
  | complete (resp : PollResponse)
  | stuck

/-- What one pass through the loop body does when the job is still pending
(lines 90-98): every fifth pass prints a line, then the body is closed, the poller
sleeps 1000 ms and sends the next request. -/
def pendingEvents (pingURL : GoString) (i : Nat) : List Event :=
  (if i % 5 = 0 then [Event.println "still waiting..."] else [])
    ++ [Event.bodyClose, Event.sleep 1000, Event.httpGet pingURL]

/-- The loop `for i := 1; resp.StatusCode != 200; i++` (lines 74-103), entered with
the current `resp` and counter `i`; `script` holds the answers to the `http.Get`
calls still to come. The events are those of the loop, in order. -/
def pollLoop (pingURL : GoString) : List PollGet → Nat → PollResponse → LoopExit × List Event
  | script, i, resp =>
    if resp.StatusCode = 200 then
      (LoopExit.complete resp, [])
    else if resp.StatusCode > 299 ∨ resp.StatusCode < 200 then
      (LoopExit.returned ⟨none, some "got non-200 response wile piging Bulk Data API server"⟩, [])
    else
      match script with
      | [] => (LoopExit.stuck, pendingEvents pingURL i)
      | PollGet.err e :: _ =>
        (LoopExit.returned ⟨none, errorsWrap (some e) "error while pinging Bulk Data API server"⟩,
          pendingEvents pingURL i)
      | PollGet.resp next :: rest =>
        let r := pollLoop pingURL rest (i + 1) next
        (r.1, pendingEvents pingURL i ++ r.2)

/-- The function `getBulkDataFiles` (lines 65-163) against a script of answers to its
`http.Get` calls. The deferred `resp.Body.Close()` of line 105 runs when the function
returns, after the body was read and inspected. -/
def getBulkDataFiles (pingURL : GoString) (script : List PollGet) : Run FilesResult × List Event :=
  let start := [Event.println "Waiting for Bulk Data API server to prepare files...",
    Event.httpGet pingURL]
  match script with
  | [] => (Run.stuck, start)
  | PollGet.err e :: _ =>
    (Run.ret ⟨none, errorsWrap (some e) "error while pinging Bulk Data API server"⟩, start)
  | PollGet.resp first :: rest =>
    match pollLoop pingURL rest 1 first with
    | (LoopExit.stuck, evs) => (Run.stuck, start ++ evs)
    | (LoopExit.returned r, evs) => (Run.ret r, start ++ evs)
    | (LoopExit.complete resp, evs) =>
      match resp.readErr with
      | some e =>
        (Run.ret ⟨none, errorsWrap (some e) "error while reading response"⟩,
          start ++ evs ++ [Event.readAll, Event.bodyClose])
      | none =>
        (Run.ret (parseManifest resp.obj resp.iterError),
          start ++ evs ++ [Event.readAll, Event.bodyClose])

/-! ## `startDlWorker` and `downloadFiles` (lines 173-237) -/

/-- The part of the `*http.Response` to a download request that the worker uses. -/
structure DlResponse where
  contentLength : GoString
  body : GoString

/-- The surroundings of the download workers: the `k`-th call of `ioutil.TempFile("", "")`
gives a file with that name, or no file (`nil`, its error is discarded on line 180);
`http.Get(url)` gives a response, or none (`nil`, its error is discarded on line 181). -/
structure DlEnv where
  tempFile : Nat → Option GoString
  httpGet : GoString → Option DlResponse

/-- One pass through the body of `for url := range jobs` (lines 180-211), after
`targetFile` was created: the value sent on `results`, or the panic that ends the run.
A `nil` response is dereferenced by `resp.Header` (line 183). The progress bar
(`ParseInt` of the header, `AddBar`, `ProxyReader`, `SetTotal`, lines 184-209) only
displays; `io.Copy` into a `nil` file reports an error that is discarded (line 207);
`targetFile.Name()` dereferences the file (line 211). -/
def workerJob (env : DlEnv) (targetFile : Option GoString) (url : GoString) : Run GoString :=
  match env.httpGet url with
  | none => Run.panic "invalid memory address or nil pointer dereference"
  | some _ =>
    match stripURL url 25 with
    | Run.panic msg => Run.panic msg
    | Run.stuck => Run.stuck
    | Run.ret _ =>
      match targetFile with
      | none => Run.panic "invalid memory address or nil pointer dereference"
      | some name => Run.ret name

/-- Where one worker goroutine stands: waiting to receive from `jobs`, holding a task
(with the temporary file created for it), or past its loop (`wg.Done()` ran). -/
inductive Worker where
  | waiting
  | transferring (url : GoString) (targetFile : Option GoString)
  | exited
  deriving DecidableEq

/-- The state shared by the goroutines of `downloadFiles`: the buffered channel `jobs`
(loaded and closed before any worker starts), the buffered channel `results`, the
workers, the number of temporary files asked for so far, and the panic that ended
the process, if any. -/
structure Pool where
  jobs : List GoString
  results : List GoString
  workers : List Worker
  tempFiles : Nat
  panicked : Option String
  deriving DecidableEq

/-- The pool after lines 217-230 of `downloadFiles`: every URL queued in order, the
channel closed, `numWorkers` goroutines started. -/
def startPool (fileURLs : List GoString) (numWorkers : Int) : Pool :=
  ⟨fileURLs, [], List.replicate numWorkers.toNat Worker.waiting, 0, none⟩

/-- One step of worker `n` (any interleaving of the goroutines is a sequence of such
steps): a waiting worker receives the next URL and creates its temporary file, or
leaves its loop when the closed channel is drained; a worker holding a task carries
it out and sends the file name on `results`, or panics. Nothing moves after a panic. -/
def step (env : DlEnv) (n : Nat) (p : Pool) : Pool :=
  match p.panicked with
  | some _ => p
  | none =>
    match p.workers[n]? with
    | none => p
    | some Worker.exited => p
    | some Worker.waiting =>
      match p.jobs with
      | [] => { p with workers := p.workers.set n Worker.exited }
      | url :: rest =>
        { p with
          jobs := rest
          workers := p.workers.set n (Worker.transferring url (env.tempFile p.tempFiles))
          tempFiles := p.tempFiles + 1 }
    | some (Worker.transferring url targetFile) =>
      match workerJob env targetFile url with
      | Run.ret name =>
        { p with results := p.results ++ [name], workers := p.workers.set n Worker.waiting }
      | Run.panic msg => { p with panicked := some msg }
      | Run.stuck => p

/-- The pool after the workers took steps in the order `sched` names them. -/
def runPool (env : DlEnv) : List Nat → Pool → Pool
  | [], p => p
  | n :: sched, p => runPool env sched (step env n p)

/-- Whether the worker holds a task. -/
def Worker.busy : Worker → Bool
  | Worker.transferring _ _ => true
  | _ => false

/-- The number of transfers in flight: workers holding a task. -/
def inFlight (p : Pool) : Nat :=
  p.workers.countP Worker.busy

/-- The function `downloadFiles` (lines 216-237) under the interleaving `sched`:
`bars.Wait()` returns once every worker has left its loop, and then `nil` is
returned; a panic in a worker ends the process; a schedule that stops before that
leaves the function waiting. -/
def downloadFiles (env : DlEnv) (sched : List Nat) (fileURLs : List GoString)
    (numWorkers : Int) : Run GoError × Pool :=
  let p := runPool env sched (startPool fileURLs numWorkers)
  match p.panicked with
  | some msg => (Run.panic msg, p)
  | none =>
    if p.workers.all (fun w => w == Worker.exited) then (Run.ret none, p) else (Run.stuck, p)

/-! ## `getBulkData` (lines 239-273) -/

/-- The part of the kickoff `*http.Response` that `getBulkData` uses; `Header` lists
the header fields, canonical name first. -/
structure KickoffResponse where
  StatusCode : Int
  Header : List (GoString × GoString)

/-- The method `Header.Get`: the value of the field, or the empty string when absent. -/
def headerGet (h : List (GoString × GoString)) (key : GoString) : GoString :=
  match h.lookup key with
  | some v => v
  | none => []

/-- What happens to the kickoff request: `http.NewRequest` rejects the URL (its error
is overwritten on line 244 and `req` is `nil`), `client.Do` fails, or a response arrives. -/
inductive Kickoff where
  | badURL
  | err (e : String)
  | resp (r : KickoffResponse)

/-- The function `getBulkData` (lines 239-273): the returned error and the events,
given the fate of the kickoff request, the script of poll answers and the
surroundings and interleaving of the download workers. -/
def getBulkData (kick : Kickoff) (script : List PollGet) (env : DlEnv) (sched : List Nat) :
    Run GoError × List Event :=
  match kick with
  | Kickoff.badURL => (Run.panic "invalid memory address or nil pointer dereference", [])
  | Kickoff.err e => (Run.ret (some e), [])
  | Kickoff.resp resp =>
    if resp.StatusCode ≥ 200 ∧ resp.StatusCode < 220 then
      let pingURL := headerGet resp.Header (ascii "Content-Location")
      if pingURL.length = 0 then
        (Run.ret (some "No Content-Location header was returned by Bulk Data API server"),
          [Event.bodyClose])
      else
        match getBulkDataFiles pingURL script with
        | (Run.stuck, evs) => (Run.stuck, evs)
        | (Run.panic msg, evs) => (Run.panic msg, evs)
        | (Run.ret ⟨_, some e⟩, evs) =>
          (Run.ret (errorsWrap (some e) "Cannot get list of files to download"),
            evs ++ [Event.bodyClose])
        | (Run.ret ⟨fileURLs, none⟩, evs) =>
          let urls := fileURLs.getD []
          match (downloadFiles env sched urls 5).1 with
          | Run.ret _ => (Run.ret none, evs ++ [Event.downloadFiles urls 5, Event.bodyClose])
          | Run.panic msg => (Run.panic msg, evs ++ [Event.downloadFiles urls 5])
          | Run.stuck => (Run.stuck, evs ++ [Event.downloadFiles urls 5])
    else
      (Run.ret none, [Event.bodyClose])

/-! ## The manifest contract, as the specification words it -/

/-- The constraint a manifest violates. -/
inductive Violation where
  | outputMissing
  | outputNotArray
  | elementNotObject
  | urlMissing
  | urlNotString
  deriving DecidableEq

/-- The error message `getBulkDataFiles` has for each violated constraint
(lines 131, 137, 144, 150, 156). -/
def violationMessage : Violation → String
  | Violation.outputMissing => "expecting to have 'output' attribute"
  | Violation.outputNotArray => "'output' attribute is not an JSON Array"
  | Violation.elementNotObject => "got non-object in 'output' array"
  | Violation.urlMissing => "cannot get 'url' attribute in item of 'output' array"
  | Violation.urlNotString => "'url' attribute is not a string"

/-- The field `key` of a JSON object, if it has one. With `nullIsMissing` a field
whose value is the literal `null` counts as not being there. -/
def field (nullIsMissing : Bool) (m : List (GoString × JVal)) (key : GoString) : Option JVal :=
  match m.lookup key with
  | some JVal.null => if nullIsMissing then none else some JVal.null
  | r => r

/-- The constraint one element of `output` violates, if any: it must be a JSON object
with a string `url`. -/
def elementViolation (nullIsMissing : Bool) (v : JVal) : Option Violation :=
  match v with
  | JVal.obj item =>
    match field nullIsMissing item (ascii "url") with
    | none => some Violation.urlMissing
    | some (JVal.str _) => none
    | some _ => some Violation.urlNotString
  | _ => some Violation.elementNotObject

/-- The `url` of a well-formed element of `output`. -/
def elementURL (v : JVal) : Option GoString :=
  match v with
  | JVal.obj item =>
    match item.lookup (ascii "url") with
    | some (JVal.str s) => some s
    | _ => none
  | _ => none

/-- The first constraint a top-level JSON object violates, in array order, if any:
`output` must be present and an array, and every element well-formed. -/
def manifestViolation (nullIsMissing : Bool) (objMap : List (GoString × JVal)) :
    Option Violation :=
  match field nullIsMissing objMap (ascii "output") with
  | none => some Violation.outputMissing
  | some (JVal.arr xs) => xs.findSome? (elementViolation nullIsMissing)
  | some _ => some Violation.outputNotArray

/-- The URLs a well-formed manifest lists, in array order. -/
def manifestURLs (objMap : List (GoString × JVal)) : List GoString :=
  match objMap.lookup (ascii "output") with
  | some (JVal.arr xs) => xs.filterMap elementURL
  | _ => []

/-- The manifest contract: the error of the first violated constraint and no list, or
the listed URLs and no error. -/
def specManifest (nullIsMissing : Bool) (objMap : List (GoString × JVal)) : FilesResult :=
  match manifestViolation nullIsMissing objMap with
  | some v => ⟨none, some (violationMessage v)⟩
  | none => ⟨some (manifestURLs objMap), none⟩

/-- A well-formed manifest: `output` is present and is an array whose elements are all
JSON objects with a string `url`. -/
def WellFormedManifest (objMap : List (GoString × JVal)) : Prop :=
  ∃ xs, objMap.lookup (ascii "output") = some (JVal.arr xs) ∧
    ∀ v ∈ xs, ∃ item s, v = JVal.obj item ∧ item.lookup (ascii "url") = some (JVal.str s)

/-- The events of `n` consecutive pending passes through the polling loop, the first
with loop counter `i`. -/
def pendingTrace (pingURL : GoString) : Nat → Nat → List Event
  | _, 0 => []
  | i, n + 1 => pendingEvents pingURL i ++ pendingTrace pingURL (i + 1) n

/-- The events other than console output. -/
def quiet (evs : List Event) : List Event :=
  evs.filter (fun e => match e with
    | Event.println _ => false
    | _ => true)

/-- A task the worker cannot survive: whatever temporary file it got, carrying out the
task panics. -/
def Fatal (env : DlEnv) (url : GoString) : Prop :=
  ∀ targetFile, ∃ msg, workerJob env targetFile url = Run.panic msg

/-- What holds of every pool reached from `startPool fileURLs numWorkers` with a
manifest of `total` URLs: every URL is still queued, in flight or answered by a
result; the workers are the `count` started; and while URLs are queued no worker has
left its loop. -/
structure Accounted (total : Nat) (count : Nat) (p : Pool) : Prop where
  ledger : p.results.length + p.jobs.length + inFlight p = total
  started : p.workers.length = count
  staying : p.jobs ≠ [] → Worker.exited ∉ p.workers

/-- The task `u` is still queued or in flight. -/
def Pending (u : GoString) (p : Pool) : Prop :=
  u ∈ p.jobs ∨ ∃ targetFile, Worker.transferring u targetFile ∈ p.workers

/-- An example of surroundings: the temporary files are numbered, and every download
is answered with an empty body except that of `http://h/b`, which fails in transport. -/
def exampleEnv : DlEnv :=
  ⟨fun k => some (ascii "/tmp/" ++ [UInt8.ofNat (48 + k)]),
    fun url => if url = ascii "http://h/b" then none else some ⟨[], []⟩⟩

/-! ## Properties of the manifest inspection -/

theorem collectURLs_of_urls (items : List (List (GoString × JVal))) (ss : List GoString)
    (h : List.Forall₂ (fun item s => mapIndex item (ascii "url") = JVal.str s) items ss)
    (acc : List GoString) :
    collectURLs (items.map JVal.obj) acc = ⟨some (acc ++ ss), none⟩ := by
  induction h generalizing acc with
  | nil => simp [collectURLs]
  | cons hhead _ ih =>
    simp only [List.map_cons, collectURLs, hhead]
    rw [ih]
    simp

/-- C1: when the decoded completion body is a JSON object whose `output` is the array
of objects with `url` fields `s_1 .. s_n` (other fields allowed), the manifest
inspection returns no error and exactly the list `[s_1, .., s_n]`. -/
theorem parseManifest_urls (objMap : List (GoString × JVal))
    (items : List (List (GoString × JVal))) (ss : List GoString) (iterError : GoError)
    (hout : mapIndex objMap (ascii "output") = JVal.arr (items.map JVal.obj))
    (hurl : List.Forall₂ (fun item s => mapIndex item (ascii "url") = JVal.str s) items ss) :
    parseManifest (JVal.obj objMap) iterError = ⟨some ss, none⟩ := by
  simp only [parseManifest, hout]
  rw [collectURLs_of_urls items ss hurl []]
  simp

/-- Witness of C1: the manifest `{"output":[{"url":"http://a"},{"url":"http://b","type":"x"}]}`. -/
theorem parseManifest_urls_witness :
    parseManifest
      (JVal.obj [(ascii "output", JVal.arr [
        JVal.obj [(ascii "url", JVal.str (ascii "http://a"))],
        JVal.obj [(ascii "url", JVal.str (ascii "http://b")),
          (ascii "type", JVal.str (ascii "x"))]])]) none
      = ⟨some [ascii "http://a", ascii "http://b"], none⟩ :=
  parseManifest_urls
    [(ascii "output", JVal.arr [
        JVal.obj [(ascii "url", JVal.str (ascii "http://a"))],
        JVal.obj [(ascii "url", JVal.str (ascii "http://b")),
          (ascii "type", JVal.str (ascii "x"))]])]
    [[(ascii "url", JVal.str (ascii "http://a"))],
      [(ascii "url", JVal.str (ascii "http://b")), (ascii "type", JVal.str (ascii "x"))]]
    [ascii "http://a", ascii "http://b"] none
    rfl
    (List.Forall₂.cons rfl (List.Forall₂.cons rfl List.Forall₂.nil))

/-- C2: for the completion body `null` (it decodes to the `nil` value, and the decoder
reports no error) the manifest inspection returns a `nil` list together with a `nil`
error: `errors.Wrap` of a `nil` error is `nil`. -/
theorem parseManifest_null_no_error :
    parseManifest JVal.null none = ⟨none, none⟩ ∧
      (getBulkDataFiles (ascii "http://s/poll")
        [PollGet.resp (PollResponse.mk 200 none JVal.null none)]).1 =
        Run.ret ⟨none, none⟩ := by
  decide

/-- Every other decoded value that is not a JSON object (an array, a string, a number,
a boolean, or nothing at all with the decoder's error set) gets an error and no list. -/
theorem parseManifest_not_object (obj : JVal) (iterError : GoError)
    (hobj : ∀ m, obj ≠ JVal.obj m) (h : obj ≠ JVal.null ∨ iterError ≠ none) :
    (parseManifest obj iterError).fileURLs = none ∧
      (parseManifest obj iterError).err ≠ none := by
  cases obj with
  | obj m => exact absurd rfl (hobj m)
  | null =>
    cases iterError with
    | none => simp at h
    | some e => simp [parseManifest, errorsWrap]
  | _ => simp [parseManifest]

theorem collectURLs_eq_spec (xs : List JVal) (acc : List GoString) :
    collectURLs xs acc =
      match xs.findSome? (elementViolation true) with
      | some v => ⟨none, some (violationMessage v)⟩
      | none => ⟨some (acc ++ xs.filterMap elementURL), none⟩ := by
  induction xs generalizing acc with
  | nil => simp [collectURLs]
  | cons v rest ih =>
    cases v with
    | obj item =>
      cases hl : item.lookup (ascii "url") with
      | none =>
        simp [collectURLs, mapIndex, elementViolation, field, hl, violationMessage]
      | some u =>
        cases u <;>
          simp [collectURLs, mapIndex, elementViolation, elementURL, field, hl,
            violationMessage, ih]
    | _ => simp [collectURLs, elementViolation, violationMessage]

theorem elementViolation_eq_none_iff (b : Bool) (v : JVal) :
    elementViolation b v = none ↔
      ∃ item s, v = JVal.obj item ∧ item.lookup (ascii "url") = some (JVal.str s) := by
  cases v with
  | obj item =>
    cases hl : item.lookup (ascii "url") with
    | none => simp [elementViolation, field, hl]
    | some u => cases u <;> cases b <;> simp [elementViolation, field, hl]
  | _ => simp [elementViolation]

theorem manifestViolation_eq_none_iff (b : Bool) (objMap : List (GoString × JVal)) :
    manifestViolation b objMap = none ↔ WellFormedManifest objMap := by
  unfold manifestViolation WellFormedManifest
  cases hl : objMap.lookup (ascii "output") with
  | none => simp [field, hl]
  | some u =>
    cases u <;> cases b <;>
      simp [field, hl, List.findSome?_eq_none_iff, elementViolation_eq_none_iff]

theorem violationMessage_injective : Function.Injective violationMessage := by
  intro a b h
  cases a <;> cases b <;> first | rfl | exact absurd h (by decide)

/-- C3, as stated, fails: for the manifest `{"output": null}` the field `output` is
present and is not an array, and the inspection reports that `output` is missing. -/
theorem parseManifest_output_null_reported_missing :
    parseManifest (JVal.obj [(ascii "output", JVal.null)]) none
        = ⟨none, some (violationMessage Violation.outputMissing)⟩ ∧
      specManifest false [(ascii "output", JVal.null)]
        = ⟨none, some (violationMessage Violation.outputNotArray)⟩ ∧
      parseManifest (JVal.obj [(ascii "output", JVal.null)]) none
        ≠ specManifest false [(ascii "output", JVal.null)] := by
  decide

/-- C3, amended: for every decoded top-level JSON object the manifest inspection
succeeds exactly when `output` is present, is an array, and every element is an
object with a string `url`, and then returns the listed URLs; otherwise it returns
no list and the error of the first violated constraint in array order, where a field
whose value is `null` is reported as missing; the five errors are distinct. -/
theorem parseManifest_eq_specManifest (objMap : List (GoString × JVal)) (iterError : GoError) :
    parseManifest (JVal.obj objMap) iterError = specManifest true objMap ∧
      ((parseManifest (JVal.obj objMap) iterError).err = none ↔ WellFormedManifest objMap) ∧
      ((parseManifest (JVal.obj objMap) iterError).fileURLs ≠ none ↔
        WellFormedManifest objMap) ∧
      Function.Injective violationMessage := by
  have key : parseManifest (JVal.obj objMap) iterError = specManifest true objMap := by
    unfold parseManifest specManifest manifestViolation manifestURLs
    cases hl : objMap.lookup (ascii "output") with
    | none => simp [mapIndex, field, hl, violationMessage]
    | some u =>
      cases u <;> simp [mapIndex, field, hl, violationMessage, collectURLs_eq_spec]
  refine ⟨key, ?_, ?_, violationMessage_injective⟩
  · rw [key, ← manifestViolation_eq_none_iff true objMap]
    unfold specManifest
    cases manifestViolation true objMap <;> simp
  · rw [key, ← manifestViolation_eq_none_iff true objMap]
    unfold specManifest
    cases manifestViolation true objMap <;> simp

/-! ## Properties of the polling loop -/

theorem pollLoop_complete (pingURL : GoString) (script : List PollGet) (i : Nat)
    (resp : PollResponse) (h : resp.StatusCode = 200) :
    pollLoop pingURL script i resp = (LoopExit.complete resp, []) := by
  cases script with
  | nil => simp [pollLoop, h]
  | cons a rest => cases a <;> simp [pollLoop, h]

theorem pollLoop_failed (pingURL : GoString) (script : List PollGet) (i : Nat)
    (resp : PollResponse) (h : resp.StatusCode ≥ 300 ∨ resp.StatusCode < 200) :
    pollLoop pingURL script i resp =
      (LoopExit.returned
        ⟨none, some "got non-200 response wile piging Bulk Data API server"⟩, []) := by
  have h1 : resp.StatusCode ≠ 200 := by omega
  have h2 : resp.StatusCode > 299 ∨ resp.StatusCode < 200 := by omega
  cases script with
  | nil => simp [pollLoop, h1, h2]
  | cons a rest => cases a <;> simp [pollLoop, h1, h2]

theorem pollLoop_pending_nil (pingURL : GoString) (i : Nat) (resp : PollResponse)
    (h : 201 ≤ resp.StatusCode ∧ resp.StatusCode ≤ 299) :
    pollLoop pingURL [] i resp = (LoopExit.stuck, pendingEvents pingURL i) := by
  have h1 : resp.StatusCode ≠ 200 := by omega
  have h2 : ¬ (resp.StatusCode > 299 ∨ resp.StatusCode < 200) := by omega
  simp [pollLoop, h1, h2]

theorem pollLoop_pending_err (pingURL : GoString) (e : String) (rest : List PollGet) (i : Nat)
    (resp : PollResponse) (h : 201 ≤ resp.StatusCode ∧ resp.StatusCode ≤ 299) :
    pollLoop pingURL (PollGet.err e :: rest) i resp =
      (LoopExit.returned
        ⟨none, errorsWrap (some e) "error while pinging Bulk Data API server"⟩,
        pendingEvents pingURL i) := by
  have h1 : resp.StatusCode ≠ 200 := by omega
  have h2 : ¬ (resp.StatusCode > 299 ∨ resp.StatusCode < 200) := by omega
  simp [pollLoop, h1, h2]

theorem pollLoop_pending_resp (pingURL : GoString) (next : PollResponse) (rest : List PollGet)
    (i : Nat) (resp : PollResponse) (h : 201 ≤ resp.StatusCode ∧ resp.StatusCode ≤ 299) :
    pollLoop pingURL (PollGet.resp next :: rest) i resp =
      ((pollLoop pingURL rest (i + 1) next).1,
        pendingEvents pingURL i ++ (pollLoop pingURL rest (i + 1) next).2) := by
  have h1 : resp.StatusCode ≠ 200 := by omega
  have h2 : ¬ (resp.StatusCode > 299 ∨ resp.StatusCode < 200) := by omega
  simp [pollLoop, h1, h2]

theorem pollLoop_pending_run (pingURL : GoString) (final : PollResponse)
    (hfinal : final.StatusCode = 200) (pend : List PollResponse) :
    ∀ (i : Nat) (resp : PollResponse),
      (201 ≤ resp.StatusCode ∧ resp.StatusCode ≤ 299) →
      (∀ r ∈ pend, 201 ≤ r.StatusCode ∧ r.StatusCode ≤ 299) →
      pollLoop pingURL ((pend ++ [final]).map PollGet.resp) i resp =
        (LoopExit.complete final, pendingTrace pingURL i (pend.length + 1)) := by
  induction pend with
  | nil =>
    intro i resp hresp _
    simp only [List.nil_append, List.map_cons, List.map_nil, List.length_nil]
    rw [pollLoop_pending_resp pingURL final [] i resp hresp,
      pollLoop_complete pingURL [] (i + 1) final hfinal]
    simp [pendingTrace]
  | cons r rest ih =>
    intro i resp hresp hpend
    have hr := hpend r (List.mem_cons_self r rest)
    have hrest : ∀ x ∈ rest, 201 ≤ x.StatusCode ∧ x.StatusCode ≤ 299 :=
      fun x hx => hpend x (List.mem_cons_of_mem r hx)
    simp only [List.cons_append, List.map_cons, List.length_cons]
    rw [pollLoop_pending_resp pingURL r _ i resp hresp, ih (i + 1) r hr hrest]
    simp [pendingTrace]

theorem quiet_append (a b : List Event) : quiet (a ++ b) = quiet a ++ quiet b := by
  simp [quiet]

theorem quiet_pendingEvents (pingURL : GoString) (i : Nat) :
    quiet (pendingEvents pingURL i) =
      [Event.bodyClose, Event.sleep 1000, Event.httpGet pingURL] := by
  unfold pendingEvents quiet
  split <;> simp

theorem quiet_pendingTrace (pingURL : GoString) (n : Nat) : ∀ i : Nat,
    quiet (pendingTrace pingURL i n) =
      (List.replicate n [Event.bodyClose, Event.sleep 1000, Event.httpGet pingURL]).flatten := by
  induction n with
  | zero => intro i; simp [pendingTrace, quiet]
  | succ n ih =>
    intro i
    simp only [pendingTrace, quiet_append, quiet_pendingEvents, ih (i + 1),
      List.replicate_succ, List.flatten_cons]

theorem count_pendingEvents (pingURL : GoString) (i : Nat) :
    (pendingEvents pingURL i).count (Event.httpGet pingURL) = 1 ∧
      (pendingEvents pingURL i).count (Event.sleep 1000) = 1 ∧
      (pendingEvents pingURL i).count Event.readAll = 0 := by
  unfold pendingEvents
  split <;> simp [List.count_cons]

theorem count_pendingTrace (pingURL : GoString) (n : Nat) : ∀ i : Nat,
    (pendingTrace pingURL i n).count (Event.httpGet pingURL) = n ∧
      (pendingTrace pingURL i n).count (Event.sleep 1000) = n ∧
      (pendingTrace pingURL i n).count Event.readAll = 0 := by
  induction n with
  | zero => intro i; simp [pendingTrace]
  | succ n ih =>
    intro i
    obtain ⟨h1, h2, h3⟩ := ih (i + 1)
    obtain ⟨g1, g2, g3⟩ := count_pendingEvents pingURL i
    simp only [pendingTrace, List.count_append]
    omega

/-- C6: against N pending answers (status 201..299) followed by one complete answer
(status 200), with no transport error, `getBulkDataFiles` returns, and apart from
console output its events are exactly: one GET, then N times (close the body, sleep
1000 ms, GET again), then one read of the body and its close; so N+1 requests, N
waits, and the only body read and inspected is the final one. -/
theorem getBulkDataFiles_pending_then_complete (pingURL : GoString)
    (pend : List PollResponse) (final : PollResponse)
    (hpend : ∀ r ∈ pend, 201 ≤ r.StatusCode ∧ r.StatusCode ≤ 299)
    (hfinal : final.StatusCode = 200) :
    (getBulkDataFiles pingURL ((pend ++ [final]).map PollGet.resp)).1 =
        Run.ret (match final.readErr with
          | some e => ⟨none, errorsWrap (some e) "error while reading response"⟩
          | none => parseManifest final.obj final.iterError) ∧
      (getBulkDataFiles pingURL ((pend ++ [final]).map PollGet.resp)).2 =
        [Event.println "Waiting for Bulk Data API server to prepare files...",
          Event.httpGet pingURL]
        ++ pendingTrace pingURL 1 pend.length ++ [Event.readAll, Event.bodyClose] ∧
      quiet (getBulkDataFiles pingURL ((pend ++ [final]).map PollGet.resp)).2 =
        [Event.httpGet pingURL]
        ++ (List.replicate pend.length
            [Event.bodyClose, Event.sleep 1000, Event.httpGet pingURL]).flatten
        ++ [Event.readAll, Event.bodyClose] ∧
      (getBulkDataFiles pingURL ((pend ++ [final]).map PollGet.resp)).2.count
        (Event.httpGet pingURL) = pend.length + 1 ∧
      (getBulkDataFiles pingURL ((pend ++ [final]).map PollGet.resp)).2.count
        (Event.sleep 1000) = pend.length ∧
      (getBulkDataFiles pingURL ((pend ++ [final]).map PollGet.resp)).2.count
        Event.readAll = 1 := by
  have hrun : (getBulkDataFiles pingURL ((pend ++ [final]).map PollGet.resp)) =
      (Run.ret (match final.readErr with
          | some e => ⟨none, errorsWrap (some e) "error while reading response"⟩
          | none => parseManifest final.obj final.iterError),
        [Event.println "Waiting for Bulk Data API server to prepare files...",
          Event.httpGet pingURL]
        ++ pendingTrace pingURL 1 pend.length ++ [Event.readAll, Event.bodyClose]) := by
    cases pend with
    | nil =>
      simp only [List.nil_append, List.map_cons, List.map_nil, getBulkDataFiles,
        pollLoop_complete pingURL [] 1 final hfinal]
      cases final.readErr <;> simp [pendingTrace]
    | cons r rest =>
      have hr := hpend r (List.mem_cons_self r rest)
      have hrest : ∀ x ∈ rest, 201 ≤ x.StatusCode ∧ x.StatusCode ≤ 299 :=
        fun x hx => hpend x (List.mem_cons_of_mem r hx)
      simp only [List.cons_append, List.map_cons, getBulkDataFiles,
        pollLoop_pending_run pingURL final hfinal rest 1 r hr hrest]
      cases final.readErr <;> simp
  refine ⟨by rw [hrun], by rw [hrun], ?_, ?_, ?_, ?_⟩
  · rw [hrun]
    simp only [quiet_append, quiet_pendingTrace]
    simp [quiet]
  · rw [hrun]
    simp [(count_pendingTrace pingURL pend.length 1).1, List.count_cons]
  · rw [hrun]
    simp [(count_pendingTrace pingURL pend.length 1).2.1, List.count_cons]
  · rw [hrun]
    simp [(count_pendingTrace pingURL pend.length 1).2.2, List.count_cons]

/-- Witness of C6: two pending answers (202) and then the manifest with one file. -/
theorem getBulkDataFiles_pending_then_complete_witness :
    (getBulkDataFiles (ascii "http://s/poll")
        (([PollResponse.mk 202 none JVal.null none, PollResponse.mk 202 none JVal.null none] ++
          [PollResponse.mk 200 none (JVal.obj [(ascii "output",
            JVal.arr [JVal.obj [(ascii "url", JVal.str (ascii "http://a"))]])]) none]).map
          PollGet.resp)).2.count (Event.httpGet (ascii "http://s/poll")) = 2 + 1 :=
  (getBulkDataFiles_pending_then_complete (ascii "http://s/poll")
    [PollResponse.mk 202 none JVal.null none, PollResponse.mk 202 none JVal.null none]
    (PollResponse.mk 200 none (JVal.obj [(ascii "output",
      JVal.arr [JVal.obj [(ascii "url", JVal.str (ascii "http://a"))]])]) none)
    (by
      intro r hr
      simp only [List.mem_cons, List.mem_singleton, List.not_mem_nil, or_false] at hr
      rcases hr with rfl | rfl <;> decide)
    rfl).2.2.2.1

theorem pollLoop_pending_then (pingURL : GoString) (last : PollResponse) (rest : List PollGet)
    (pend : List PollResponse) :
    ∀ (i : Nat) (resp : PollResponse),
      (201 ≤ resp.StatusCode ∧ resp.StatusCode ≤ 299) →
      (∀ r ∈ pend, 201 ≤ r.StatusCode ∧ r.StatusCode ≤ 299) →
      pollLoop pingURL ((pend ++ [last]).map PollGet.resp ++ rest) i resp =
        ((pollLoop pingURL rest (i + (pend.length + 1)) last).1,
          pendingTrace pingURL i (pend.length + 1) ++
            (pollLoop pingURL rest (i + (pend.length + 1)) last).2) := by
  induction pend with
  | nil =>
    intro i resp hresp _
    simp only [List.nil_append, List.map_cons, List.map_nil, List.length_nil,
      List.cons_append, Nat.zero_add]
    rw [pollLoop_pending_resp pingURL last rest i resp hresp]
    simp [pendingTrace]
  | cons r more ih =>
    intro i resp hresp hpend
    have hr := hpend r (List.mem_cons_self r more)
    have hmore : ∀ x ∈ more, 201 ≤ x.StatusCode ∧ x.StatusCode ≤ 299 :=
      fun x hx => hpend x (List.mem_cons_of_mem r hx)
    have harith : i + 1 + (more.length + 1) = i + (more.length + 1 + 1) := by omega
    simp only [List.cons_append, List.map_cons, List.length_cons]
    rw [pollLoop_pending_resp pingURL r _ i resp hresp, ih (i + 1) r hr hmore, harith]
    simp [pendingTrace]

theorem getBulkDataFiles_of_loop (pingURL : GoString) (pend : List PollResponse)
    (last : PollResponse) (rest : List PollGet)
    (hpend : ∀ r ∈ pend, 201 ≤ r.StatusCode ∧ r.StatusCode ≤ 299)
    (x : LoopExit) (evs : List Event)
    (hloop : pollLoop pingURL rest (pend.length + 1) last = (x, evs)) :
    getBulkDataFiles pingURL ((pend ++ [last]).map PollGet.resp ++ rest) =
      match x with
      | LoopExit.stuck =>
        (Run.stuck,
          [Event.println "Waiting for Bulk Data API server to prepare files...",
            Event.httpGet pingURL] ++ pendingTrace pingURL 1 pend.length ++ evs)
      | LoopExit.returned r =>
        (Run.ret r,
          [Event.println "Waiting for Bulk Data API server to prepare files...",
            Event.httpGet pingURL] ++ pendingTrace pingURL 1 pend.length ++ evs)
      | LoopExit.complete resp =>
        (Run.ret (match resp.readErr with
          | some e => ⟨none, errorsWrap (some e) "error while reading response"⟩
          | none => parseManifest resp.obj resp.iterError),
          [Event.println "Waiting for Bulk Data API server to prepare files...",
            Event.httpGet pingURL] ++ pendingTrace pingURL 1 pend.length ++ evs
            ++ [Event.readAll, Event.bodyClose]) := by
  cases pend with
  | nil =>
    simp only [List.length_nil, Nat.zero_add] at hloop
    simp only [List.nil_append, List.map_cons, List.map_nil, List.cons_append,
      getBulkDataFiles, hloop, List.length_nil, pendingTrace]
    cases x with
    | stuck => simp
    | returned r => simp
    | complete resp =>
      simp only
      split <;> rfl
  | cons r more =>
    have hr := hpend r (List.mem_cons_self r more)
    have hmore : ∀ y ∈ more, 201 ≤ y.StatusCode ∧ y.StatusCode ≤ 299 :=
      fun y hy => hpend y (List.mem_cons_of_mem r hy)
    have harith : 1 + (more.length + 1) = (r :: more).length + 1 := by
      simp only [List.length_cons]
      omega
    have hrun := pollLoop_pending_then pingURL last rest more 1 r hr hmore
    rw [harith, hloop] at hrun
    simp only [List.cons_append, List.map_cons, getBulkDataFiles, hrun, List.length_cons]
    cases x with
    | stuck => simp
    | returned r => simp
    | complete resp =>
      simp only
      split <;> rfl

theorem flatten_replicate_succ_end {α : Type} (n : Nat) (l : List α) :
    (List.replicate (n + 1) l).flatten = (List.replicate n l).flatten ++ l := by
  rw [List.replicate_succ', List.flatten_append]
  simp

theorem quiet_poll_start (pingURL : GoString) (n : Nat) (tail : List Event) :
    quiet ([Event.println "Waiting for Bulk Data API server to prepare files...",
        Event.httpGet pingURL] ++ pendingTrace pingURL 1 n ++ tail) =
      [Event.httpGet pingURL]
        ++ (List.replicate n
            [Event.bodyClose, Event.sleep 1000, Event.httpGet pingURL]).flatten
        ++ quiet tail := by
  simp only [quiet_append, quiet_pendingTrace]
  simp [quiet]

theorem getBulkDataFiles_events_start (pingURL : GoString) (pend : List PollResponse)
    (last : PollResponse) (rest : List PollGet)
    (hpend : ∀ r ∈ pend, 201 ≤ r.StatusCode ∧ r.StatusCode ≤ 299) :
    ∃ more, quiet (getBulkDataFiles pingURL ((pend ++ [last]).map PollGet.resp ++ rest)).2 =
      [Event.httpGet pingURL]
        ++ (List.replicate pend.length
            [Event.bodyClose, Event.sleep 1000, Event.httpGet pingURL]).flatten
        ++ more := by
  cases hloop : pollLoop pingURL rest (pend.length + 1) last with
  | mk x evs =>
    rw [getBulkDataFiles_of_loop pingURL pend last rest hpend x evs hloop]
    cases x with
    | stuck => exact ⟨quiet evs, quiet_poll_start pingURL pend.length evs⟩
    | returned r => exact ⟨quiet evs, quiet_poll_start pingURL pend.length evs⟩
    | complete resp =>
      refine ⟨quiet (evs ++ [Event.readAll, Event.bodyClose]), ?_⟩
      simp only [List.append_assoc]
      exact quiet_poll_start pingURL pend.length (evs ++ [Event.readAll, Event.bodyClose])

theorem getBulkDataFiles_complete_now (pingURL : GoString) (pend : List PollResponse)
    (resp : PollResponse) (rest : List PollGet)
    (hpend : ∀ r ∈ pend, 201 ≤ r.StatusCode ∧ r.StatusCode ≤ 299)
    (h : resp.StatusCode = 200) :
    (getBulkDataFiles pingURL ((pend ++ [resp]).map PollGet.resp ++ rest)).1 =
        Run.ret (match resp.readErr with
          | some e => ⟨none, errorsWrap (some e) "error while reading response"⟩
          | none => parseManifest resp.obj resp.iterError) ∧
      quiet (getBulkDataFiles pingURL ((pend ++ [resp]).map PollGet.resp ++ rest)).2 =
        [Event.httpGet pingURL]
          ++ (List.replicate pend.length
              [Event.bodyClose, Event.sleep 1000, Event.httpGet pingURL]).flatten
          ++ [Event.readAll, Event.bodyClose] := by
  rw [getBulkDataFiles_of_loop pingURL pend resp rest hpend _ _
    (pollLoop_complete pingURL rest (pend.length + 1) resp h)]
  refine ⟨rfl, ?_⟩
  simp only [List.append_nil]
  rw [quiet_poll_start]
  simp [quiet]

theorem getBulkDataFiles_failed_now (pingURL : GoString) (pend : List PollResponse)
    (resp : PollResponse) (rest : List PollGet)
    (hpend : ∀ r ∈ pend, 201 ≤ r.StatusCode ∧ r.StatusCode ≤ 299)
    (h : resp.StatusCode ≥ 300 ∨ resp.StatusCode < 200) :
    (getBulkDataFiles pingURL ((pend ++ [resp]).map PollGet.resp ++ rest)).1 =
        Run.ret ⟨none, some "got non-200 response wile piging Bulk Data API server"⟩ ∧
      quiet (getBulkDataFiles pingURL ((pend ++ [resp]).map PollGet.resp ++ rest)).2 =
        [Event.httpGet pingURL]
          ++ (List.replicate pend.length
              [Event.bodyClose, Event.sleep 1000, Event.httpGet pingURL]).flatten := by
  rw [getBulkDataFiles_of_loop pingURL pend resp rest hpend _ _
    (pollLoop_failed pingURL rest (pend.length + 1) resp h)]
  refine ⟨rfl, ?_⟩
  simp only
  rw [quiet_poll_start]
  simp [quiet]

/-- C4: for every status code of a poll answer of `getBulkDataFiles` (reached after any
number of pending answers): exactly 200 ends polling, the body is read and inspected
and its outcome returned, and the body closed; any other code in 200..299 makes the
poller close the body, sleep 1000 ms and send the next GET without returning, what is
returned being decided by the answers that follow; any code >= 300 or < 200 returns at
once an error and no file list, without closing, sleeping, requesting or reading. The
three cases are exhaustive and mutually exclusive. -/
theorem getBulkDataFiles_status (pingURL : GoString) (pend : List PollResponse)
    (resp : PollResponse)
    (hpend : ∀ r ∈ pend, 201 ≤ r.StatusCode ∧ r.StatusCode ≤ 299) :
    (resp.StatusCode = 200 → ∀ rest,
        (getBulkDataFiles pingURL ((pend ++ [resp]).map PollGet.resp ++ rest)).1 =
          Run.ret (match resp.readErr with
            | some e => ⟨none, errorsWrap (some e) "error while reading response"⟩
            | none => parseManifest resp.obj resp.iterError) ∧
        quiet (getBulkDataFiles pingURL ((pend ++ [resp]).map PollGet.resp ++ rest)).2 =
          [Event.httpGet pingURL]
            ++ (List.replicate pend.length
                [Event.bodyClose, Event.sleep 1000, Event.httpGet pingURL]).flatten
            ++ [Event.readAll, Event.bodyClose]) ∧
      (200 ≤ resp.StatusCode ∧ resp.StatusCode ≤ 299 ∧ resp.StatusCode ≠ 200 →
        ((getBulkDataFiles pingURL ((pend ++ [resp]).map PollGet.resp)).1 = Run.stuck ∧
          quiet (getBulkDataFiles pingURL ((pend ++ [resp]).map PollGet.resp)).2 =
            [Event.httpGet pingURL]
              ++ (List.replicate pend.length
                  [Event.bodyClose, Event.sleep 1000, Event.httpGet pingURL]).flatten
              ++ [Event.bodyClose, Event.sleep 1000, Event.httpGet pingURL]) ∧
        (∀ e rest,
          (getBulkDataFiles pingURL
              ((pend ++ [resp]).map PollGet.resp ++ PollGet.err e :: rest)).1 =
            Run.ret ⟨none, errorsWrap (some e) "error while pinging Bulk Data API server"⟩ ∧
          quiet (getBulkDataFiles pingURL
              ((pend ++ [resp]).map PollGet.resp ++ PollGet.err e :: rest)).2 =
            [Event.httpGet pingURL]
              ++ (List.replicate pend.length
                  [Event.bodyClose, Event.sleep 1000, Event.httpGet pingURL]).flatten
              ++ [Event.bodyClose, Event.sleep 1000, Event.httpGet pingURL]) ∧
        (∀ next rest,
          (∃ more,
            quiet (getBulkDataFiles pingURL
                ((pend ++ [resp]).map PollGet.resp ++ PollGet.resp next :: rest)).2 =
              [Event.httpGet pingURL]
                ++ (List.replicate pend.length
                    [Event.bodyClose, Event.sleep 1000, Event.httpGet pingURL]).flatten
                ++ [Event.bodyClose, Event.sleep 1000, Event.httpGet pingURL] ++ more) ∧
          (next.StatusCode = 200 →
            (getBulkDataFiles pingURL
                ((pend ++ [resp]).map PollGet.resp ++ PollGet.resp next :: rest)).1 =
              Run.ret (match next.readErr with
                | some e => ⟨none, errorsWrap (some e) "error while reading response"⟩
                | none => parseManifest next.obj next.iterError) ∧
            quiet (getBulkDataFiles pingURL
                ((pend ++ [resp]).map PollGet.resp ++ PollGet.resp next :: rest)).2 =
              [Event.httpGet pingURL]
                ++ (List.replicate pend.length
                    [Event.bodyClose, Event.sleep 1000, Event.httpGet pingURL]).flatten
                ++ [Event.bodyClose, Event.sleep 1000, Event.httpGet pingURL]
                ++ [Event.readAll, Event.bodyClose]) ∧
          (next.StatusCode ≥ 300 ∨ next.StatusCode < 200 →
            (getBulkDataFiles pingURL
                ((pend ++ [resp]).map PollGet.resp ++ PollGet.resp next :: rest)).1 =
              Run.ret ⟨none, some "got non-200 response wile piging Bulk Data API server"⟩ ∧
            quiet (getBulkDataFiles pingURL
                ((pend ++ [resp]).map PollGet.resp ++ PollGet.resp next :: rest)).2 =
              [Event.httpGet pingURL]
                ++ (List.replicate pend.length
                    [Event.bodyClose, Event.sleep 1000, Event.httpGet pingURL]).flatten
                ++ [Event.bodyClose, Event.sleep 1000, Event.httpGet pingURL]))) ∧
      (resp.StatusCode ≥ 300 ∨ resp.StatusCode < 200 → ∀ rest,
        (getBulkDataFiles pingURL ((pend ++ [resp]).map PollGet.resp ++ rest)).1 =
          Run.ret ⟨none, some "got non-200 response wile piging Bulk Data API server"⟩ ∧
        quiet (getBulkDataFiles pingURL ((pend ++ [resp]).map PollGet.resp ++ rest)).2 =
          [Event.httpGet pingURL]
            ++ (List.replicate pend.length
                [Event.bodyClose, Event.sleep 1000, Event.httpGet pingURL]).flatten) ∧
      (resp.StatusCode = 200 ∨
        (200 ≤ resp.StatusCode ∧ resp.StatusCode ≤ 299 ∧ resp.StatusCode ≠ 200) ∨
        (resp.StatusCode ≥ 300 ∨ resp.StatusCode < 200)) ∧
      ¬ (resp.StatusCode = 200 ∧ (resp.StatusCode ≥ 300 ∨ resp.StatusCode < 200)) ∧
      ¬ ((200 ≤ resp.StatusCode ∧ resp.StatusCode ≤ 299 ∧ resp.StatusCode ≠ 200) ∧
        (resp.StatusCode ≥ 300 ∨ resp.StatusCode < 200)) := by
  refine ⟨fun h rest => getBulkDataFiles_complete_now pingURL pend resp rest hpend h, ?_,
    fun h rest => getBulkDataFiles_failed_now pingURL pend resp rest hpend h,
    by omega, by omega, by omega⟩
  intro h
  have hp : 201 ≤ resp.StatusCode ∧ resp.StatusCode ≤ 299 := by omega
  have hpend2 : ∀ r ∈ pend ++ [resp], 201 ≤ r.StatusCode ∧ r.StatusCode ≤ 299 := by
    intro r hr
    rcases List.mem_append.mp hr with hr | hr
    · exact hpend r hr
    · rw [List.mem_singleton.mp hr]
      exact hp
  have hscript : ∀ (next : PollResponse) (rest : List PollGet),
      (pend ++ [resp]).map PollGet.resp ++ PollGet.resp next :: rest =
        ((pend ++ [resp]) ++ [next]).map PollGet.resp ++ rest := by
    intro next rest
    simp
  have hlen : (pend ++ [resp]).length = pend.length + 1 := by simp
  refine ⟨?_, ?_, ?_⟩
  · have hrun := getBulkDataFiles_of_loop pingURL pend resp [] hpend _ _
      (pollLoop_pending_nil pingURL (pend.length + 1) resp hp)
    rw [List.append_nil] at hrun
    rw [hrun]
    refine ⟨rfl, ?_⟩
    simp only
    rw [quiet_poll_start, quiet_pendingEvents]
  · intro e rest
    rw [getBulkDataFiles_of_loop pingURL pend resp (PollGet.err e :: rest) hpend _ _
      (pollLoop_pending_err pingURL e rest (pend.length + 1) resp hp)]
    refine ⟨rfl, ?_⟩
    simp only
    rw [quiet_poll_start, quiet_pendingEvents]
  · intro next rest
    rw [hscript next rest]
    refine ⟨?_, ?_, ?_⟩
    · obtain ⟨more, hmore⟩ :=
        getBulkDataFiles_events_start pingURL (pend ++ [resp]) next rest hpend2
      refine ⟨more, ?_⟩
      rw [hmore, hlen, flatten_replicate_succ_end]
      simp
    · intro hnext
      have hc := getBulkDataFiles_complete_now pingURL (pend ++ [resp]) next rest hpend2 hnext
      rw [hlen, flatten_replicate_succ_end] at hc
      refine ⟨hc.1, ?_⟩
      rw [hc.2]
      simp
    · intro hnext
      have hc := getBulkDataFiles_failed_now pingURL (pend ++ [resp]) next rest hpend2 hnext
      rw [hlen, flatten_replicate_succ_end] at hc
      refine ⟨hc.1, ?_⟩
      rw [hc.2]
      simp

/-- Witness of C4: after one pending answer (202), the answer 200 with a one-file
manifest, and the answer 404; and the pending answer 202 followed by that 200. -/
theorem getBulkDataFiles_status_witness :
    ((getBulkDataFiles (ascii "http://s/poll")
          [PollGet.resp (PollResponse.mk 202 none JVal.null none),
            PollGet.resp (PollResponse.mk 200 none (JVal.obj [(ascii "output",
              JVal.arr [JVal.obj [(ascii "url", JVal.str (ascii "http://a"))]])]) none)]).1 =
        Run.ret ⟨some [ascii "http://a"], none⟩ ∧
      quiet (getBulkDataFiles (ascii "http://s/poll")
          [PollGet.resp (PollResponse.mk 202 none JVal.null none),
            PollGet.resp (PollResponse.mk 200 none (JVal.obj [(ascii "output",
              JVal.arr [JVal.obj [(ascii "url", JVal.str (ascii "http://a"))]])]) none)]).2 =
        [Event.httpGet (ascii "http://s/poll"), Event.bodyClose, Event.sleep 1000,
          Event.httpGet (ascii "http://s/poll"), Event.readAll, Event.bodyClose]) ∧
      ((getBulkDataFiles (ascii "http://s/poll")
          [PollGet.resp (PollResponse.mk 202 none JVal.null none),
            PollGet.resp (PollResponse.mk 404 none JVal.null none)]).1 =
        Run.ret ⟨none, some "got non-200 response wile piging Bulk Data API server"⟩ ∧
      quiet (getBulkDataFiles (ascii "http://s/poll")
          [PollGet.resp (PollResponse.mk 202 none JVal.null none),
            PollGet.resp (PollResponse.mk 404 none JVal.null none)]).2 =
        [Event.httpGet (ascii "http://s/poll"), Event.bodyClose, Event.sleep 1000,
          Event.httpGet (ascii "http://s/poll")]) ∧
      ((getBulkDataFiles (ascii "http://s/poll")
          [PollGet.resp (PollResponse.mk 202 none JVal.null none)]).1 = Run.stuck ∧
      quiet (getBulkDataFiles (ascii "http://s/poll")
          [PollGet.resp (PollResponse.mk 202 none JVal.null none)]).2 =
        [Event.httpGet (ascii "http://s/poll"), Event.bodyClose, Event.sleep 1000,
          Event.httpGet (ascii "http://s/poll")]) ∧
      ((getBulkDataFiles (ascii "http://s/poll")
          [PollGet.resp (PollResponse.mk 250 none JVal.null none),
            PollGet.resp (PollResponse.mk 200 (some "EOF") JVal.null none)]).1 =
        Run.ret ⟨none, errorsWrap (some "EOF") "error while reading response"⟩ ∧
      quiet (getBulkDataFiles (ascii "http://s/poll")
          [PollGet.resp (PollResponse.mk 250 none JVal.null none),
            PollGet.resp (PollResponse.mk 200 (some "EOF") JVal.null none)]).2 =
        [Event.httpGet (ascii "http://s/poll"), Event.bodyClose, Event.sleep 1000,
          Event.httpGet (ascii "http://s/poll"), Event.readAll, Event.bodyClose]) :=
  ⟨(getBulkDataFiles_status (ascii "http://s/poll")
      [PollResponse.mk 202 none JVal.null none]
      (PollResponse.mk 200 none (JVal.obj [(ascii "output",
        JVal.arr [JVal.obj [(ascii "url", JVal.str (ascii "http://a"))]])]) none)
      (by
        intro r hr
        rw [List.mem_singleton.mp hr]
        decide)).1 rfl [],
    (getBulkDataFiles_status (ascii "http://s/poll")
      [PollResponse.mk 202 none JVal.null none]
      (PollResponse.mk 404 none JVal.null none)
      (by
        intro r hr
        rw [List.mem_singleton.mp hr]
        decide)).2.2.1 (by decide) [],
    ((getBulkDataFiles_status (ascii "http://s/poll") []
      (PollResponse.mk 202 none JVal.null none)
      (by
        intro r hr
        cases hr)).2.1 (by decide)).1,
    ((((getBulkDataFiles_status (ascii "http://s/poll") []
      (PollResponse.mk 250 none JVal.null none)
      (by
        intro r hr
        cases hr)).2.1 (by decide)).2.2
      (PollResponse.mk 200 (some "EOF") JVal.null none) []).2.1) rfl⟩

/-! ## Properties of the kickoff -/

/-- C5, as stated, fails: a kickoff response with status 500 and no `Content-Location`
header makes `getBulkData` return the `nil` error. -/
theorem getBulkData_status_500_no_error :
    List.lookup (ascii "Content-Location") ([] : List (GoString × GoString)) = none ∧
      getBulkData (Kickoff.resp ⟨500, []⟩) [] ⟨fun _ => none, fun _ => none⟩ []
        = (Run.ret none, [Event.bodyClose]) := by
  decide

/-- C5, amended: for every kickoff response without a `Content-Location` header, if the
status is in [200, 220) then `getBulkData` returns the error "No Content-Location
header was returned by Bulk Data API server", and otherwise it returns `nil`; in both
cases the only event is the close of the kickoff body: no poll request is sent and
`downloadFiles` is not called. -/
theorem getBulkData_no_content_location (resp : KickoffResponse) (script : List PollGet)
    (env : DlEnv) (sched : List Nat)
    (hloc : resp.Header.lookup (ascii "Content-Location") = none) :
    (200 ≤ resp.StatusCode ∧ resp.StatusCode < 220 →
        (getBulkData (Kickoff.resp resp) script env sched).1 =
          Run.ret (some "No Content-Location header was returned by Bulk Data API server")) ∧
      (¬ (200 ≤ resp.StatusCode ∧ resp.StatusCode < 220) →
        (getBulkData (Kickoff.resp resp) script env sched).1 = Run.ret none) ∧
      (getBulkData (Kickoff.resp resp) script env sched).2 = [Event.bodyClose] := by
  by_cases h : resp.StatusCode ≥ 200 ∧ resp.StatusCode < 220
  · have h' : 200 ≤ resp.StatusCode ∧ resp.StatusCode < 220 := h
    simp [getBulkData, h, h', headerGet, hloc]
  · have h' : ¬ (200 ≤ resp.StatusCode ∧ resp.StatusCode < 220) := h
    refine ⟨fun hc => absurd hc h', fun _ => ?_, ?_⟩ <;> simp [getBulkData, h]

/-- Witness of C5 (amended): status 202 without any header. -/
theorem getBulkData_no_content_location_witness :
    (getBulkData (Kickoff.resp ⟨202, []⟩) [] ⟨fun _ => none, fun _ => none⟩ []).1 =
      Run.ret (some "No Content-Location header was returned by Bulk Data API server") :=
  (getBulkData_no_content_location ⟨202, []⟩ [] ⟨fun _ => none, fun _ => none⟩ [] rfl).1
    (by decide)

/-! ## Properties of `stripURL` -/

theorem stripURL_short (url : GoString) (w : Int) (h : (url.length : Int) < w) :
    ∃ pad : GoString, stripURL url w = Run.ret (pad ++ url) ∧
      (∀ b ∈ pad, b = 32) ∧ ((pad ++ url).length : Int) = w := by
  refine ⟨List.replicate (w - (url.length : Int)).toNat (32 : UInt8), ?_, ?_, ?_⟩
  · simp [stripURL, h]
  · intro b hb
    exact (List.mem_replicate.mp hb).2
  · simp only [List.length_append, List.length_replicate]
    omega

/-- C8: for every width `w >= 0` and every URL of at least `w + 3` bytes, `stripURL`
returns the marker "..." followed by the last `w + 3` bytes of the URL: a label of
`w + 6` bytes, not of `w` bytes. -/
theorem stripURL_long_width (url : GoString) (w : Int) (hw : 0 ≤ w)
    (hlen : w + 3 ≤ (url.length : Int)) :
    ∃ tail : GoString, stripURL url w = Run.ret (ascii "..." ++ tail) ∧
      tail <:+ url ∧ (tail.length : Int) = w + 3 ∧
      ((ascii "..." ++ tail).length : Int) = w + 6 := by
  have hnot : ¬ ((url.length : Int) < w) := by omega
  have hb : 0 ≤ (url.length : Int) - w - 3 ∧
      (url.length : Int) - w - 3 ≤ (url.length : Int) ∧
      (url.length : Int) ≤ (url.length : Int) := by omega
  have htake : List.take ((url.length : Int) - ((url.length : Int) - w - 3)).toNat
      (List.drop ((url.length : Int) - w - 3).toNat url) =
      List.drop ((url.length : Int) - w - 3).toNat url := by
    apply List.take_of_length_le
    simp only [List.length_drop]
    omega
  refine ⟨url.drop ((url.length : Int) - w - 3).toNat, ?_, List.drop_suffix _ _, ?_, ?_⟩
  · simp only [stripURL, if_neg hnot, sliceString, if_pos hb, htake]
  · simp only [List.length_drop]
    omega
  · have h3 : (ascii "...").length = 3 := by decide
    simp only [List.length_append, List.length_drop, h3]
    omega

/-- Witness of C8: a URL of 30 bytes at the width 25 of the worker gets a label of 31 bytes. -/
theorem stripURL_long_width_witness :
    ∃ tail : GoString,
      stripURL (ascii "http://example.org/file.ndjson") 25 = Run.ret (ascii "..." ++ tail) ∧
      tail <:+ ascii "http://example.org/file.ndjson" ∧ (tail.length : Int) = 25 + 3 ∧
      ((ascii "..." ++ tail).length : Int) = 25 + 6 :=
  stripURL_long_width (ascii "http://example.org/file.ndjson") 25 (by decide) (by decide)

theorem stripURL_panic_of_short_tail (url : GoString) (w : Int)
    (hge : w ≤ (url.length : Int)) (hlt : (url.length : Int) < w + 3) :
    stripURL url w = Run.panic "slice bounds out of range" := by
  have hnot : ¬ ((url.length : Int) < w) := by omega
  have hb : ¬ (0 ≤ (url.length : Int) - w - 3 ∧
      (url.length : Int) - w - 3 ≤ (url.length : Int) ∧
      (url.length : Int) ≤ (url.length : Int)) := by omega
  simp only [stripURL, if_neg hnot, sliceString, if_neg hb]

/-- C10: for every width `w >= 0` and every URL of `w`, `w + 1` or `w + 2` bytes the
abbreviation branch of `stripURL` is taken with the negative lower index
`len(url) - w - 3`, and the call panics with a slice-bounds error. -/
theorem stripURL_slice_panic (url : GoString) (w : Int) (_ : 0 ≤ w)
    (hge : w ≤ (url.length : Int)) (hlt : (url.length : Int) < w + 3) :
    (url.length : Int) - w - 3 < 0 ∧
      stripURL url w = Run.panic "slice bounds out of range" := by
  exact ⟨by omega, stripURL_panic_of_short_tail url w hge hlt⟩

/-- Witness of C10: a URL of 25 bytes at the width 25 of the worker. -/
theorem stripURL_slice_panic_witness :
    ((ascii "http://example.org/a.json").length : Int) - 25 - 3 < 0 ∧
      stripURL (ascii "http://example.org/a.json") 25 =
        Run.panic "slice bounds out of range" :=
  stripURL_slice_panic (ascii "http://example.org/a.json") 25 (by decide) (by decide)
    (by decide)

/-! ## Properties of the download workers -/

theorem countP_set_of_getElem? {α : Type} (q : α → Bool) (b : α) :
    ∀ (l : List α) (n : Nat) (a : α), l[n]? = some a →
      (l.set n b).countP q + (if q a then 1 else 0) = l.countP q + (if q b then 1 else 0) := by
  intro l
  induction l with
  | nil => intro n a h; simp at h
  | cons x xs ih =>
    intro n a h
    cases n with
    | zero =>
      simp only [List.getElem?_cons_zero, Option.some.injEq] at h
      subst h
      simp only [List.set_cons_zero, List.countP_cons]
      omega
    | succ m =>
      simp only [List.getElem?_cons_succ] at h
      have := ih m a h
      simp only [List.set_cons_succ, List.countP_cons]
      omega

theorem mem_set_of_ne {α : Type} (b x : α) :
    ∀ (l : List α) (n : Nat) (a : α), l[n]? = some a → x ∈ l → x ≠ a → x ∈ l.set n b := by
  intro l
  induction l with
  | nil => intro n a h; simp at h
  | cons y ys ih =>
    intro n a h hx hne
    cases n with
    | zero =>
      simp only [List.getElem?_cons_zero, Option.some.injEq] at h
      subst h
      simp only [List.set_cons_zero, List.mem_cons] at hx ⊢
      rcases hx with hx | hx
      · exact absurd hx hne
      · exact Or.inr hx
    | succ m =>
      simp only [List.getElem?_cons_succ] at h
      simp only [List.set_cons_succ, List.mem_cons] at hx ⊢
      rcases hx with hx | hx
      · exact Or.inl hx
      · exact Or.inr (ih m a h hx hne)

theorem mem_set_self {α : Type} (b : α) :
    ∀ (l : List α) (n : Nat) (a : α), l[n]? = some a → b ∈ l.set n b := by
  intro l
  induction l with
  | nil => intro n a h; simp at h
  | cons y ys ih =>
    intro n a h
    cases n with
    | zero => simp
    | succ m =>
      simp only [List.getElem?_cons_succ] at h
      simp only [List.set_cons_succ, List.mem_cons]
      exact Or.inr (ih m a h)

theorem step_accounted (env : DlEnv) (total : Nat) (count : Nat) (n : Nat) (p : Pool)
    (h : Accounted total count p) : Accounted total count (step env n p) := by
  obtain ⟨hledger, hstarted, hstaying⟩ := h
  unfold inFlight at hledger
  cases hpan : p.panicked with
  | some msg => simpa [step, hpan] using Accounted.mk hledger hstarted hstaying
  | none =>
    cases hw : p.workers[n]? with
    | none => simpa [step, hpan, hw] using Accounted.mk hledger hstarted hstaying
    | some w =>
      cases w with
      | exited => simpa [step, hpan, hw] using Accounted.mk hledger hstarted hstaying
      | waiting =>
        cases hj : p.jobs with
        | nil =>
          have hc := countP_set_of_getElem? Worker.busy Worker.exited p.workers n _ hw
          simp only [Worker.busy] at hc
          simp only [step, hpan, hw, hj]
          refine ⟨?_, ?_, ?_⟩
          · simp only [inFlight]
            simp only [hj] at hledger
            simp only [Bool.false_eq_true, if_false] at hc
            omega
          · simpa using hstarted
          · intro hne
            exact absurd rfl hne
        | cons url rest =>
          have hc := countP_set_of_getElem? Worker.busy
            (Worker.transferring url (env.tempFile p.tempFiles)) p.workers n _ hw
          simp only [Worker.busy] at hc
          simp only [step, hpan, hw, hj]
          refine ⟨?_, ?_, ?_⟩
          · simp only [inFlight]
            simp only [hj, List.length_cons] at hledger
            simp only [Bool.false_eq_true, if_false, if_true] at hc
            omega
          · simpa using hstarted
          · intro _ hmem
            have hno : Worker.exited ∉ p.workers := hstaying (by simp [hj])
            rcases List.mem_or_eq_of_mem_set hmem with hm | hm
            · exact hno hm
            · cases hm
      | transferring url tf =>
        cases hjob : workerJob env tf url with
        | stuck => simpa [step, hpan, hw, hjob] using Accounted.mk hledger hstarted hstaying
        | panic msg =>
          simp only [step, hpan, hw, hjob]
          exact ⟨hledger, hstarted, hstaying⟩
        | ret name =>
          have hc := countP_set_of_getElem? Worker.busy Worker.waiting p.workers n _ hw
          simp only [Worker.busy] at hc
          simp only [step, hpan, hw, hjob]
          refine ⟨?_, ?_, ?_⟩
          · simp only [inFlight, List.length_append, List.length_singleton]
            simp only [Bool.false_eq_true, if_false, if_true] at hc
            omega
          · simpa using hstarted
          · intro hjobs hmem
            have hno : Worker.exited ∉ p.workers := hstaying hjobs
            rcases List.mem_or_eq_of_mem_set hmem with hm | hm
            · exact hno hm
            · cases hm

theorem step_pending (env : DlEnv) (u : GoString) (hu : Fatal env u) (n : Nat) (p : Pool)
    (h : Pending u p) : Pending u (step env n p) := by
  unfold Pending at h ⊢
  cases hpan : p.panicked with
  | some msg => simpa [step, hpan] using h
  | none =>
    cases hw : p.workers[n]? with
    | none => simpa [step, hpan, hw] using h
    | some w =>
      cases w with
      | exited => simpa [step, hpan, hw] using h
      | waiting =>
        cases hj : p.jobs with
        | nil =>
          simp only [step, hpan, hw, hj]
          rcases h with hq | ⟨tf, hq⟩
          · simp [hj] at hq
          · exact Or.inr ⟨tf, mem_set_of_ne _ _ p.workers n _ hw hq (by simp)⟩
        | cons url rest =>
          simp only [step, hpan, hw, hj]
          rcases h with hq | ⟨tf, hq⟩
          · simp only [hj, List.mem_cons] at hq
            rcases hq with rfl | hq
            · exact Or.inr ⟨_, mem_set_self _ p.workers n _ hw⟩
            · exact Or.inl hq
          · exact Or.inr ⟨tf, mem_set_of_ne _ _ p.workers n _ hw hq (by simp)⟩
      | transferring url tf =>
        cases hjob : workerJob env tf url with
        | stuck => simpa [step, hpan, hw, hjob] using h
        | panic msg =>
          simp only [step, hpan, hw, hjob]
          exact h
        | ret name =>
          have hne : url ≠ u := by
            intro he
            subst he
            obtain ⟨msg, hmsg⟩ := hu tf
            rw [hmsg] at hjob
            cases hjob
          simp only [step, hpan, hw, hjob]
          rcases h with hq | ⟨tf', hq⟩
          · exact Or.inl hq
          · refine Or.inr ⟨tf', mem_set_of_ne _ _ p.workers n _ hw hq ?_⟩
            intro he
            cases he
            exact hne rfl

theorem runPool_accounted (env : DlEnv) (total : Nat) (count : Nat) (sched : List Nat) :
    ∀ p : Pool, Accounted total count p → Accounted total count (runPool env sched p) := by
  induction sched with
  | nil => intro p h; exact h
  | cons n rest ih => intro p h; exact ih _ (step_accounted env total count n p h)

theorem runPool_pending (env : DlEnv) (u : GoString) (hu : Fatal env u) (sched : List Nat) :
    ∀ p : Pool, Pending u p → Pending u (runPool env sched p) := by
  induction sched with
  | nil => intro p h; exact h
  | cons n rest ih => intro p h; exact ih _ (step_pending env u hu n p h)

theorem startPool_accounted (fileURLs : List GoString) (numWorkers : Int) :
    Accounted fileURLs.length numWorkers.toNat (startPool fileURLs numWorkers) := by
  refine ⟨?_, by simp [startPool], ?_⟩
  · have hz : List.countP Worker.busy (List.replicate numWorkers.toNat Worker.waiting) = 0 := by
      rw [List.countP_eq_zero]
      intro w hw
      rw [(List.mem_replicate.mp hw).2]
      simp [Worker.busy]
    simp only [startPool, inFlight, List.length_nil, hz]
    omega
  · intro _ hmem
    simp only [startPool] at hmem
    have := (List.mem_replicate.mp hmem).2
    cases this

theorem pending_results_lt (total : Nat) (u : GoString) (count : Nat) (p : Pool)
    (h : Accounted total count p) (hpending : Pending u p) : p.results.length < total := by
  obtain ⟨hledger, -, -⟩ := h
  rcases hpending with hq | ⟨tf, hq⟩
  · have : 0 < p.jobs.length := List.length_pos_of_mem hq
    omega
  · have : 0 < inFlight p := by
      unfold inFlight
      rw [List.countP_pos_iff]
      exact ⟨_, hq, rfl⟩
    omega

theorem pending_not_all_exited (total : Nat) (u : GoString) (count : Nat) (p : Pool)
    (hcount : 0 < count) (h : Accounted total count p) (hpending : Pending u p) :
    p.workers.all (fun w => w == Worker.exited) = false := by
  obtain ⟨-, hstarted, hstaying⟩ := h
  rw [Bool.eq_false_iff]
  intro hall
  rw [List.all_eq_true] at hall
  rcases hpending with hq | ⟨tf, hq⟩
  · have hno : Worker.exited ∉ p.workers := hstaying (List.ne_nil_of_mem hq)
    have hpos : 0 < p.workers.length := by omega
    obtain ⟨w, hw⟩ := List.exists_mem_of_length_pos hpos
    have := hall w hw
    simp only [beq_iff_eq] at this
    exact hno (this ▸ hw)
  · have := hall _ hq
    simp at this

theorem fatal_pool (env : DlEnv) (fileURLs : List GoString) (numWorkers : Int) (u : GoString)
    (hu : u ∈ fileURLs) (hfatal : Fatal env u) (hW : 1 ≤ numWorkers) (sched : List Nat) :
    (runPool env sched (startPool fileURLs numWorkers)).results.length < fileURLs.length ∧
      ∀ e, (downloadFiles env sched fileURLs numWorkers).1 ≠ Run.ret e := by
  have ha := runPool_accounted env fileURLs.length numWorkers.toNat sched _
    (startPool_accounted fileURLs numWorkers)
  have hp := runPool_pending env u hfatal sched (startPool fileURLs numWorkers) (Or.inl hu)
  refine ⟨pending_results_lt _ _ _ _ ha hp, ?_⟩
  intro e
  have hall := pending_not_all_exited _ _ _ _ (by omega) ha hp
  unfold downloadFiles
  simp only
  cases hpan : (runPool env sched (startPool fileURLs numWorkers)).panicked with
  | some msg => simp
  | none => simp [hall]

/-- At every moment of every interleaving at most `numWorkers` transfers are in flight. -/
theorem inFlight_le_numWorkers (env : DlEnv) (fileURLs : List GoString) (numWorkers : Int)
    (sched : List Nat) :
    inFlight (runPool env sched (startPool fileURLs numWorkers)) ≤ numWorkers.toNat := by
  have ha := runPool_accounted env fileURLs.length numWorkers.toNat sched _
    (startPool_accounted fileURLs numWorkers)
  rw [← ha.started]
  exact List.countP_le_length _

/-- Whenever `downloadFiles` with at least one worker returns, it returns `nil` and the
`results` channel holds one entry per manifest URL. -/
theorem downloadFiles_returns_all (env : DlEnv) (fileURLs : List GoString) (numWorkers : Int)
    (hW : 1 ≤ numWorkers) (sched : List Nat) (e : GoError)
    (hret : (downloadFiles env sched fileURLs numWorkers).1 = Run.ret e) :
    e = none ∧
      (downloadFiles env sched fileURLs numWorkers).2.results.length = fileURLs.length := by
  have ha := runPool_accounted env fileURLs.length numWorkers.toNat sched _
    (startPool_accounted fileURLs numWorkers)
  obtain ⟨hledger, hstarted, hstaying⟩ := ha
  unfold downloadFiles at hret ⊢
  simp only at hret ⊢
  cases hpan : (runPool env sched (startPool fileURLs numWorkers)).panicked with
  | some msg => simp [hpan] at hret
  | none =>
    by_cases hall : (runPool env sched (startPool fileURLs numWorkers)).workers.all
        (fun w => w == Worker.exited) = true
    · simp only [hpan, hall, if_true] at hret ⊢
      rw [List.all_eq_true] at hall
      have hpos : 0 < (runPool env sched (startPool fileURLs numWorkers)).workers.length := by
        omega
      obtain ⟨w, hw⟩ := List.exists_mem_of_length_pos hpos
      have hwe : w = Worker.exited := by simpa using hall w hw
      have hjobs : (runPool env sched (startPool fileURLs numWorkers)).jobs = [] := by
        by_contra hne
        exact hstaying hne (hwe ▸ hw)
      have hidle : inFlight (runPool env sched (startPool fileURLs numWorkers)) = 0 := by
        unfold inFlight
        rw [List.countP_eq_zero]
        intro x hx
        have hxe : x = Worker.exited := by simpa using hall x hx
        simp [hxe, Worker.busy]
      refine ⟨?_, ?_⟩
      · cases hret
        rfl
      · rw [hjobs, hidle] at hledger
        simpa using hledger
    · simp [hpan, hall] at hret

theorem fatal_of_transport_failure (env : DlEnv) (u : GoString) (hget : env.httpGet u = none)
    (targetFile : Option GoString) :
    workerJob env targetFile u =
      Run.panic "invalid memory address or nil pointer dereference" := by
  unfold workerJob
  rw [hget]

theorem fatal_of_short_tail (env : DlEnv) (u : GoString)
    (hlen : 25 ≤ u.length ∧ u.length < 28) : Fatal env u := by
  intro targetFile
  have hs : stripURL u 25 = Run.panic "slice bounds out of range" :=
    stripURL_panic_of_short_tail u 25 (by omega) (by omega)
  cases hget : env.httpGet u with
  | none =>
    refine ⟨"invalid memory address or nil pointer dereference", ?_⟩
    unfold workerJob
    rw [hget]
  | some r =>
    refine ⟨"slice bounds out of range", ?_⟩
    unfold workerJob
    rw [hget, hs]

/-- C7: when the GET of a queued download task fails in transport, the worker that
takes the task panics on the missing response; under every interleaving of
`numWorkers >= 1` workers the batch of M tasks yields fewer than M results and
`downloadFiles` does not return. -/
theorem transport_failure_faults (env : DlEnv) (fileURLs : List GoString) (numWorkers : Int)
    (u : GoString) (hu : u ∈ fileURLs) (hget : env.httpGet u = none) (hW : 1 ≤ numWorkers) :
    (∀ targetFile, workerJob env targetFile u =
        Run.panic "invalid memory address or nil pointer dereference") ∧
      ∀ sched,
        (runPool env sched (startPool fileURLs numWorkers)).results.length < fileURLs.length ∧
        ∀ e, (downloadFiles env sched fileURLs numWorkers).1 ≠ Run.ret e :=
  ⟨fatal_of_transport_failure env u hget,
    fun sched => fatal_pool env fileURLs numWorkers u hu
      (fun tf => ⟨_, fatal_of_transport_failure env u hget tf⟩) hW sched⟩

/-- Witness of C7: three tasks, the GET of the second fails, one worker: after the
first result the worker panics and the third task stays queued. -/
theorem transport_failure_faults_witness :
    (runPool exampleEnv [0, 0, 0, 0]
        (startPool [ascii "http://h/a", ascii "http://h/b", ascii "http://h/c"] 1)).results.length
        < [ascii "http://h/a", ascii "http://h/b", ascii "http://h/c"].length ∧
      runPool exampleEnv [0, 0, 0, 0]
        (startPool [ascii "http://h/a", ascii "http://h/b", ascii "http://h/c"] 1) =
        ⟨[ascii "http://h/c"], [ascii "/tmp/0"],
          [Worker.transferring (ascii "http://h/b") (some (ascii "/tmp/1"))], 2,
          some "invalid memory address or nil pointer dereference"⟩ :=
  ⟨((transport_failure_faults exampleEnv
      [ascii "http://h/a", ascii "http://h/b", ascii "http://h/c"] 1 (ascii "http://h/b")
      (by decide) rfl (by decide)).2 [0, 0, 0, 0]).1, by decide⟩

/-- C9: when the manifest holds a URL of 25, 26 or 27 bytes, the worker that takes it
panics (in `stripURL`, or before on a missing response); under every interleaving of
`numWorkers >= 1` workers the manifest of M URLs yields fewer than M results and
`downloadFiles` does not return. -/
theorem short_tail_url_faults (env : DlEnv) (fileURLs : List GoString) (numWorkers : Int)
    (u : GoString) (hu : u ∈ fileURLs) (hlen : 25 ≤ u.length ∧ u.length < 28)
    (hW : 1 ≤ numWorkers) :
    (∀ targetFile, ∃ msg, workerJob env targetFile u = Run.panic msg) ∧
      ∀ sched,
        (runPool env sched (startPool fileURLs numWorkers)).results.length < fileURLs.length ∧
        ∀ e, (downloadFiles env sched fileURLs numWorkers).1 ≠ Run.ret e :=
  ⟨fatal_of_short_tail env u hlen,
    fun sched => fatal_pool env fileURLs numWorkers u hu (fatal_of_short_tail env u hlen) hW sched⟩

/-- Witness of C9: a manifest of one URL of 26 bytes whose download is answered, one
worker: the worker panics in `stripURL` and no result is produced. -/
theorem short_tail_url_faults_witness :
    (runPool exampleEnv [0, 0] (startPool [ascii "http://example.org/ab.json"] 1)).results.length
        < [ascii "http://example.org/ab.json"].length ∧
      runPool exampleEnv [0, 0] (startPool [ascii "http://example.org/ab.json"] 1) =
        ⟨[], [], [Worker.transferring (ascii "http://example.org/ab.json") (some (ascii "/tmp/0"))],
          1, some "slice bounds out of range"⟩ :=
  ⟨((short_tail_url_faults exampleEnv [ascii "http://example.org/ab.json"] 1
      (ascii "http://example.org/ab.json") (by decide) (by decide) (by decide)).2 [0, 0]).1,
    by decide⟩

end Bulk
